import Mathlib

/-!
Verification of the session-detection and listening-context classification
engine of a Spotify listening-history analyzer.

Timestamps (`endTime`) are modelled as exact rational minutes since the
epoch 1970-01-01 00:00 (a Thursday); the code's conversion of time deltas
to minutes via `total_seconds() / 60` is then the plain difference of
`endTime` values.
-/

namespace Spotify

/-- A play event row of the analyzer's dataframe: end timestamp (in minutes
since the epoch), artist name, track name and minutes played. -/
structure PlayEvent where
  endTime : ℚ
  artistName : String
  trackName : String
  minutesPlayed : ℚ
  deriving DecidableEq, Repr

/-- Order on events by end timestamp, the key of `sort_values('endTime')`. -/
def evLe (a b : PlayEvent) : Prop := a.endTime ≤ b.endTime

instance : DecidableRel evLe := fun a b => inferInstanceAs (Decidable (a.endTime ≤ b.endTime))

instance : IsTotal PlayEvent evLe := ⟨fun a b => le_total a.endTime b.endTime⟩

instance : IsTrans PlayEvent evLe := ⟨fun _ _ _ h h' => le_trans h h'⟩

/-- `sorted_df = self.df.sort_values('endTime')`: stable sort by end
timestamp ascending. -/
def sortByEnd (evs : List PlayEvent) : List PlayEvent := evs.insertionSort evLe

/-- Grouping of the already sorted event list into sessions: the code marks
`new_session` at row `i` iff `i = 0` or the end-time delta to row `i-1`
exceeds the gap threshold (in minutes), assigns `session_id` by a running
cumulative sum of the marks, and groups rows by `session_id`; equivalently,
the sorted list is split exactly between each consecutive pair whose
end-time difference strictly exceeds the threshold. -/
def detectSessionsSorted (g : ℚ) : List PlayEvent → List (List PlayEvent)
  | [] => []
  | [e] => [[e]]
  | e :: e2 :: rest =>
    match detectSessionsSorted g (e2 :: rest) with
    | [] => [[e]]
    | s :: ss =>
      if e2.endTime - e.endTime > g then [e] :: s :: ss
      else (e :: s) :: ss

/-- `detect_sessions(gap_threshold)`: empty dataframe yields `[]`; otherwise
sort by `endTime` and split at gaps strictly above the threshold. -/
def detect_sessions (evs : List PlayEvent) (g : ℚ) : List (List PlayEvent) :=
  if evs.isEmpty then [] else detectSessionsSorted g (sortByEnd evs)

theorem detectSessionsSorted_cons_shape (g : ℚ) (e : PlayEvent) (l : List PlayEvent) :
    ∃ s ss, detectSessionsSorted g (e :: l) = (e :: s) :: ss := by
  induction l generalizing e with
  | nil => exact ⟨[], [], rfl⟩
  | cons e2 rest ih =>
    obtain ⟨s, ss, h⟩ := ih e2
    by_cases hg : e2.endTime - e.endTime > g
    · exact ⟨[], (e2 :: s) :: ss, by simp [detectSessionsSorted, h, hg]⟩
    · exact ⟨e2 :: s, ss, by simp [detectSessionsSorted, h, hg]⟩

theorem flatten_detectSessionsSorted (g : ℚ) :
    ∀ l : List PlayEvent, (detectSessionsSorted g l).flatten = l := by
  intro l
  induction l with
  | nil => rfl
  | cons e rest ih =>
    cases rest with
    | nil => rfl
    | cons e2 rest2 =>
      obtain ⟨s, ss, h⟩ := detectSessionsSorted_cons_shape g e2 rest2
      rw [h] at ih
      by_cases hg : e2.endTime - e.endTime > g
      · simp only [detectSessionsSorted, h, if_pos hg]
        simpa using ih
      · simp only [detectSessionsSorted, h, if_neg hg]
        simpa using ih

theorem length_detectSessionsSorted_cons_cons (g : ℚ) (e e2 : PlayEvent)
    (rest : List PlayEvent) :
    (detectSessionsSorted g (e :: e2 :: rest)).length =
      (if e2.endTime - e.endTime > g then 1 else 0) +
        (detectSessionsSorted g (e2 :: rest)).length := by
  obtain ⟨s, ss, h⟩ := detectSessionsSorted_cons_shape g e2 rest
  by_cases hg : e2.endTime - e.endTime > g <;>
    simp [detectSessionsSorted, h, hg, Nat.add_comm]

theorem length_detectSessionsSorted_mono {t1 t2 : ℚ} (h : t1 ≤ t2) :
    ∀ l : List PlayEvent,
      (detectSessionsSorted t2 l).length ≤ (detectSessionsSorted t1 l).length := by
  intro l
  induction l with
  | nil => simp [detectSessionsSorted]
  | cons e rest ih =>
    cases rest with
    | nil => simp [detectSessionsSorted]
    | cons e2 rest2 =>
      rw [length_detectSessionsSorted_cons_cons, length_detectSessionsSorted_cons_cons]
      have hif : (if e2.endTime - e.endTime > t2 then 1 else 0) ≤
          (if e2.endTime - e.endTime > t1 then 1 else 0) := by
        by_cases h2 : e2.endTime - e.endTime > t2
        · have h1 : e2.endTime - e.endTime > t1 := lt_of_le_of_lt h h2
          simp [h1, h2]
        · simp [h2]
      exact Nat.add_le_add hif ih

theorem sortByEnd_pairwise (evs : List PlayEvent) : (sortByEnd evs).Pairwise evLe :=
  List.sorted_insertionSort evLe evs

theorem sortByEnd_perm (evs : List PlayEvent) : (sortByEnd evs).Perm evs :=
  List.perm_insertionSort evLe evs

theorem ne_nil_of_mem_detectSessionsSorted (g : ℚ) :
    ∀ l : List PlayEvent, ∀ s ∈ detectSessionsSorted g l, s ≠ [] := by
  intro l
  induction l with
  | nil => intro s hs; simp [detectSessionsSorted] at hs
  | cons e rest ih =>
    cases rest with
    | nil =>
      intro s hs
      simp only [detectSessionsSorted, List.mem_singleton] at hs
      simp [hs]
    | cons e2 rest2 =>
      obtain ⟨s', ss, h⟩ := detectSessionsSorted_cons_shape g e2 rest2
      intro s hs
      by_cases hg : e2.endTime - e.endTime > g
      · simp only [detectSessionsSorted, h, if_pos hg, List.mem_cons] at hs
        rcases hs with h1 | h1 | h1
        · simp [h1]
        · simp [h1]
        · exact ih s (by rw [h]; exact List.mem_cons_of_mem _ h1)
      · simp only [detectSessionsSorted, h, if_neg hg, List.mem_cons] at hs
        rcases hs with h1 | h1
        · simp [h1]
        · exact ih s (by rw [h]; exact List.mem_cons_of_mem _ h1)

theorem flatten_detect_sessions (evs : List PlayEvent) (g : ℚ) :
    (detect_sessions evs g).flatten = sortByEnd evs := by
  cases evs with
  | nil => rfl
  | cons e rest =>
    simp only [detect_sessions, List.isEmpty_cons, if_neg]
    exact flatten_detectSessionsSorted g (sortByEnd (e :: rest))

theorem detect_sessions_sessions_pairwise (evs : List PlayEvent) (g : ℚ) :
    (∀ s ∈ detect_sessions evs g, s.Pairwise evLe) ∧
      (detect_sessions evs g).Pairwise
        (fun s t => ∀ a ∈ s, ∀ b ∈ t, a.endTime ≤ b.endTime) := by
  have h : ((detect_sessions evs g).flatten).Pairwise evLe := by
    rw [flatten_detect_sessions]; exact sortByEnd_pairwise evs
  rw [List.pairwise_flatten] at h
  exact ⟨h.1, h.2⟩

theorem chain_within_detectSessionsSorted (g : ℚ) :
    ∀ l : List PlayEvent, ∀ s ∈ detectSessionsSorted g l,
      s.Chain' (fun a b => b.endTime - a.endTime ≤ g) := by
  intro l
  induction l with
  | nil => intro s hs; simp [detectSessionsSorted] at hs
  | cons e rest ih =>
    cases rest with
    | nil =>
      intro s hs
      simp only [detectSessionsSorted, List.mem_singleton] at hs
      simp [hs]
    | cons e2 rest2 =>
      obtain ⟨s', ss, h⟩ := detectSessionsSorted_cons_shape g e2 rest2
      intro s hs
      by_cases hg : e2.endTime - e.endTime > g
      · simp only [detectSessionsSorted, h, if_pos hg, List.mem_cons] at hs
        rcases hs with h1 | h1 | h1
        · simp [h1]
        · exact h1 ▸ ih _ (by rw [h]; exact List.mem_cons_self _ _)
        · exact ih s (by rw [h]; exact List.mem_cons_of_mem _ h1)
      · simp only [detectSessionsSorted, h, if_neg hg, List.mem_cons] at hs
        rcases hs with h1 | h1
        · subst h1
          have hhead : (detectSessionsSorted g (e2 :: rest2)).flatten = e2 :: rest2 :=
            flatten_detectSessionsSorted g (e2 :: rest2)
          have hchain : (e2 :: s').Chain' (fun a b => b.endTime - a.endTime ≤ g) :=
            ih _ (by rw [h]; exact List.mem_cons_self _ _)
          exact List.chain'_cons'.mpr
            ⟨fun b hb => by
              simp only [List.head?_cons, Option.mem_def, Option.some.injEq] at hb
              subst hb
              linarith [not_lt.mp hg], hchain⟩
        · exact ih s (by rw [h]; exact List.mem_cons_of_mem _ h1)

theorem chain_between_detectSessionsSorted (g : ℚ) :
    ∀ l : List PlayEvent,
      (detectSessionsSorted g l).Chain'
        (fun s t => ∀ a ∈ s.getLast?, ∀ b ∈ t.head?, b.endTime - a.endTime > g) := by
  intro l
  induction l with
  | nil => simp [detectSessionsSorted]
  | cons e rest ih =>
    cases rest with
    | nil => simp [detectSessionsSorted]
    | cons e2 rest2 =>
      obtain ⟨s', ss, h⟩ := detectSessionsSorted_cons_shape g e2 rest2
      rw [h] at ih
      by_cases hg : e2.endTime - e.endTime > g
      · simp only [detectSessionsSorted, h, if_pos hg]
        refine List.chain'_cons.mpr ⟨?_, ih⟩
        intro a ha b hb
        simp only [List.getLast?_singleton, Option.mem_def, Option.some.injEq] at ha
        simp only [List.head?_cons, Option.mem_def, Option.some.injEq] at hb
        subst ha; subst hb
        exact hg
      · simp only [detectSessionsSorted, h, if_neg hg]
        cases ss with
        | nil => simp
        | cons t ts =>
          rw [List.chain'_cons] at ih ⊢
          refine ⟨?_, ih.2⟩
          intro a ha b hb
          rw [List.getLast?_cons_cons] at ha
          exact ih.1 a ha b hb

theorem ne_nil_of_mem_detect_sessions (evs : List PlayEvent) (g : ℚ) :
    ∀ s ∈ detect_sessions evs g, s ≠ [] := by
  intro s hs
  unfold detect_sessions at hs
  by_cases hev : evs.isEmpty
  · simp [hev] at hs
  · rw [if_neg hev] at hs
    exact ne_nil_of_mem_detectSessionsSorted g (sortByEnd evs) s hs

theorem detect_sessions_ne_nil {evs : List PlayEvent} (hev : evs ≠ []) (g : ℚ) :
    detect_sessions evs g ≠ [] := by
  unfold detect_sessions
  rw [if_neg (by simpa using hev)]
  have hperm := sortByEnd_perm evs
  cases hsort : sortByEnd evs with
  | nil => rw [hsort] at hperm; exact absurd hperm.symm.eq_nil hev
  | cons e l =>
    obtain ⟨s, ss, h⟩ := detectSessionsSorted_cons_shape g e l
    rw [h]
    simp

/-- C1: for every event table and gap threshold, the sessions returned by
`detect_sessions` partition the input events (joined together they are a
permutation of the input — no duplicates, no omissions — and none is empty),
events within each session are ordered by end timestamp, and the sessions
themselves are time-ordered. -/
theorem detect_sessions_partition (evs : List PlayEvent) (g : ℚ) :
    ((detect_sessions evs g).flatten).Perm evs ∧
    (∀ s ∈ detect_sessions evs g, s ≠ [] ∧ s.Pairwise evLe) ∧
    (detect_sessions evs g).Pairwise
      (fun s t => ∀ a ∈ s, ∀ b ∈ t, a.endTime ≤ b.endTime) := by
  obtain ⟨hin, hcross⟩ := detect_sessions_sessions_pairwise evs g
  refine ⟨?_, fun s hs => ⟨ne_nil_of_mem_detect_sessions evs g s hs, hin s hs⟩, hcross⟩
  rw [flatten_detect_sessions]
  exact sortByEnd_perm evs

/-- C1 witness: the partition property instantiated at a concrete event
table and the default threshold. -/
theorem detect_sessions_partition_witness :
    ((detect_sessions
        [⟨0, "A", "t1", 3⟩, ⟨100, "B", "t2", 3⟩, ⟨110, "A", "t3", 3⟩] 30).flatten).Perm
      [⟨0, "A", "t1", 3⟩, ⟨100, "B", "t2", 3⟩, ⟨110, "A", "t3", 3⟩] :=
  (detect_sessions_partition
    [⟨0, "A", "t1", 3⟩, ⟨100, "B", "t2", 3⟩, ⟨110, "A", "t3", 3⟩] 30).1

/-- C2: `detect_sessions` sorts the events by end timestamp ascending
(stable — a tied pair keeps its original order), then starts a new session
exactly at the first event and at each event whose gap in minutes to its
predecessor strictly exceeds the threshold: within every session all
consecutive gaps are `≤ g`, while between consecutive sessions the boundary
gap is `> g`; an empty event set yields an empty sequence. -/
theorem detect_sessions_algorithm (evs : List PlayEvent) (g : ℚ) :
    detect_sessions [] g = [] ∧
    (detect_sessions evs g).flatten = sortByEnd evs ∧
    (sortByEnd evs).Pairwise evLe ∧
    (sortByEnd evs).Perm evs ∧
    (∀ a b : PlayEvent, [a, b].Sublist evs → a.endTime = b.endTime →
      [a, b].Sublist (sortByEnd evs)) ∧
    (∀ s ∈ detect_sessions evs g, s.Chain' (fun a b => b.endTime - a.endTime ≤ g)) ∧
    (detect_sessions evs g).Chain'
      (fun s t => ∀ a ∈ s.getLast?, ∀ b ∈ t.head?, b.endTime - a.endTime > g) := by
  refine ⟨rfl, flatten_detect_sessions evs g, sortByEnd_pairwise evs, sortByEnd_perm evs,
    ?_, ?_, ?_⟩
  · intro a b hsub heq
    exact List.pair_sublist_insertionSort (le_of_eq heq) hsub
  · intro s hs
    unfold detect_sessions at hs
    by_cases hev : evs.isEmpty
    · simp [hev] at hs
    · rw [if_neg hev] at hs
      exact chain_within_detectSessionsSorted g (sortByEnd evs) s hs
  · unfold detect_sessions
    by_cases hev : evs.isEmpty
    · simp [hev]
    · rw [if_neg hev]
      exact chain_between_detectSessionsSorted g (sortByEnd evs)

/-- C2 witness: the algorithm characterization instantiated at a concrete
event table and threshold (empty-input clause extracted). -/
theorem detect_sessions_algorithm_witness :
    detect_sessions [] (30 : ℚ) = [] :=
  (detect_sessions_algorithm [⟨0, "A", "t1", 3⟩] 30).1

/-- C3: for every event table, raising the gap threshold never increases the
number of sessions produced by `detect_sessions`. -/
theorem detect_sessions_threshold_mono (evs : List PlayEvent) {t1 t2 : ℚ}
    (h : t1 ≤ t2) :
    (detect_sessions evs t2).length ≤ (detect_sessions evs t1).length := by
  unfold detect_sessions
  by_cases hev : evs.isEmpty
  · simp [hev]
  · rw [if_neg hev, if_neg hev]
    exact length_detectSessionsSorted_mono h (sortByEnd evs)

/-- C3 witness: monotonicity applied at a concrete event table with
thresholds `5 ≤ 50`. -/
theorem detect_sessions_threshold_mono_witness :
    (5 : ℚ) ≤ 50 ∧
      (detect_sessions
          [⟨0, "A", "t1", 3⟩, ⟨100, "B", "t2", 3⟩, ⟨110, "A", "t3", 3⟩] 50).length ≤
        (detect_sessions
          [⟨0, "A", "t1", 3⟩, ⟨100, "B", "t2", 3⟩, ⟨110, "A", "t3", 3⟩] 5).length :=
  ⟨by norm_num,
    detect_sessions_threshold_mono
      [⟨0, "A", "t1", 3⟩, ⟨100, "B", "t2", 3⟩, ⟨110, "A", "t3", 3⟩] (by norm_num)⟩

/-- A row for context classification: hour of day, weekday index
(0 = Monday), and the audio features energy and tempo (read only when the
table has audio-feature columns). -/
structure CtxRow where
  hour : ℕ
  weekday : ℕ
  energy : ℚ
  tempo : ℚ
  deriving DecidableEq, Repr

/-- `determine_context` inside `categorize_listening_contexts`: when the
audio-feature columns are absent, energy defaults to `0.5` and tempo to
`120`; the rules are tested in the order workout, commute, work, party,
relaxation, falling through to `"other"`. -/
def determine_context (hasAudio : Bool) (r : CtxRow) : String :=
  let energy : ℚ := if hasAudio then r.energy else 1/2
  let tempo : ℚ := if hasAudio then r.tempo else 120
  if hasAudio = true ∧ energy > 7/10 ∧ tempo > 120 ∧
      ((5 ≤ r.hour ∧ r.hour ≤ 9) ∨ (17 ≤ r.hour ∧ r.hour ≤ 20)) then "workout"
  else if r.weekday < 5 ∧ ((7 ≤ r.hour ∧ r.hour ≤ 9) ∨ (16 ≤ r.hour ∧ r.hour ≤ 19)) then
    "commute"
  else if r.weekday < 5 ∧ (9 ≤ r.hour ∧ r.hour ≤ 17) ∧
      (hasAudio = false ∨ energy < 7/10) then "work"
  else if 5 ≤ r.weekday ∧ 20 ≤ r.hour ∧ (hasAudio = false ∨ energy > 7/10) then "party"
  else if 20 ≤ r.hour ∧ (hasAudio = false ∨ energy < 1/2) then "relaxation"
  else "other"

/-- Spec wording, workout rule: audio features present, energy above `0.7`,
tempo above `120`, hour in `[5,9]` or `[17,20]` (inclusive bounds). -/
def workoutRule (hasAudio : Bool) (r : CtxRow) : Prop :=
  hasAudio = true ∧ r.energy > 7/10 ∧ r.tempo > 120 ∧
    ((5 ≤ r.hour ∧ r.hour ≤ 9) ∨ (17 ≤ r.hour ∧ r.hour ≤ 20))

/-- Spec wording, commute rule: weekday below 5 and hour in `[7,9]` or
`[16,19]` (inclusive bounds). -/
def commuteRule (r : CtxRow) : Prop :=
  r.weekday < 5 ∧ ((7 ≤ r.hour ∧ r.hour ≤ 9) ∨ (16 ≤ r.hour ∧ r.hour ≤ 19))

/-- Spec wording, work rule: weekday below 5, hour in `[9,17]`, and audio
features absent or energy below `0.7`. -/
def workRule (hasAudio : Bool) (r : CtxRow) : Prop :=
  r.weekday < 5 ∧ (9 ≤ r.hour ∧ r.hour ≤ 17) ∧ (hasAudio = false ∨ r.energy < 7/10)

/-- Spec wording, party rule: weekday at least 5, hour at least 20, and
audio features absent or energy above `0.7`. -/
def partyRule (hasAudio : Bool) (r : CtxRow) : Prop :=
  5 ≤ r.weekday ∧ 20 ≤ r.hour ∧ (hasAudio = false ∨ r.energy > 7/10)

/-- Spec wording, relaxation rule: hour at least 20 and audio features
absent or energy below `0.5`. -/
def relaxationRule (hasAudio : Bool) (r : CtxRow) : Prop :=
  20 ≤ r.hour ∧ (hasAudio = false ∨ r.energy < 1/2)

instance (ha : Bool) (r : CtxRow) : Decidable (workoutRule ha r) := by
  unfold workoutRule; infer_instance

instance (r : CtxRow) : Decidable (commuteRule r) := by
  unfold commuteRule; infer_instance

instance (ha : Bool) (r : CtxRow) : Decidable (workRule ha r) := by
  unfold workRule; infer_instance

instance (ha : Bool) (r : CtxRow) : Decidable (partyRule ha r) := by
  unfold partyRule; infer_instance

instance (ha : Bool) (r : CtxRow) : Decidable (relaxationRule ha r) := by
  unfold relaxationRule; infer_instance

theorem determine_context_eq_ruleTable (hasAudio : Bool) (r : CtxRow) :
    determine_context hasAudio r =
      if workoutRule hasAudio r then "workout"
      else if commuteRule r then "commute"
      else if workRule hasAudio r then "work"
      else if partyRule hasAudio r then "party"
      else if relaxationRule hasAudio r then "relaxation"
      else "other" := by
  cases hasAudio <;>
    simp [determine_context, workoutRule, commuteRule, workRule, partyRule, relaxationRule]

/-- C4: the rule classifier evaluates workout, commute, work, party,
relaxation in exactly that priority order with first match winning and
falls through to `"other"`, with all hour and weekday bounds inclusive of
both endpoints (as written in the rule predicates); in particular an event
with hour 8, weekday 0, energy `0.85`, tempo `150` and audio features
present is labeled `"workout"`, not `"commute"`. -/
theorem categorize_listening_contexts_priority (hasAudio : Bool) (r : CtxRow) :
    (determine_context hasAudio r = "workout" ↔ workoutRule hasAudio r) ∧
    (determine_context hasAudio r = "commute" ↔
      ¬workoutRule hasAudio r ∧ commuteRule r) ∧
    (determine_context hasAudio r = "work" ↔
      ¬workoutRule hasAudio r ∧ ¬commuteRule r ∧ workRule hasAudio r) ∧
    (determine_context hasAudio r = "party" ↔
      ¬workoutRule hasAudio r ∧ ¬commuteRule r ∧ ¬workRule hasAudio r ∧
        partyRule hasAudio r) ∧
    (determine_context hasAudio r = "relaxation" ↔
      ¬workoutRule hasAudio r ∧ ¬commuteRule r ∧ ¬workRule hasAudio r ∧
        ¬partyRule hasAudio r ∧ relaxationRule hasAudio r) ∧
    (determine_context hasAudio r = "other" ↔
      ¬workoutRule hasAudio r ∧ ¬commuteRule r ∧ ¬workRule hasAudio r ∧
        ¬partyRule hasAudio r ∧ ¬relaxationRule hasAudio r) ∧
    determine_context true ⟨8, 0, 17/20, 150⟩ = "workout" := by
  rw [determine_context_eq_ruleTable]
  refine ⟨?_, ?_, ?_, ?_, ?_, ?_, by norm_num [determine_context]⟩ <;>
    split_ifs <;> simp_all

/-- `session['artistName'].nunique()`: number of distinct artist names in a
session. -/
def uniqueArtists (s : List PlayEvent) : ℕ := (s.map (fun e => e.artistName)).dedup.length

/-- Per-session type label of `session_content_analysis`: the four nested
conditions of the source, in order, falling through to `"mixed"`. -/
def sessionType (s : List PlayEvent) : String :=
  if 1 < s.length ∧ uniqueArtists s = 1 then "single_artist"
  else if 3 < s.length ∧ uniqueArtists s ≤ 2 then "album_listening"
  else if 1 < s.length ∧ (4 : ℚ)/5 < (uniqueArtists s : ℚ) / (s.length : ℚ) then "variety"
  else "mixed"

/-- Spec wording: more than one event and exactly one distinct artist. -/
def singleArtistCond (s : List PlayEvent) : Prop := 1 < s.length ∧ uniqueArtists s = 1

/-- Spec wording: more than three events and at most two distinct artists. -/
def albumListeningCond (s : List PlayEvent) : Prop := 3 < s.length ∧ uniqueArtists s ≤ 2

/-- Spec wording: more than one event and distinct-artist count over event
count above `0.8`. -/
def varietyCond (s : List PlayEvent) : Prop :=
  1 < s.length ∧ (uniqueArtists s : ℚ) / (s.length : ℚ) > 4/5

instance (s : List PlayEvent) : Decidable (singleArtistCond s) := by
  unfold singleArtistCond; infer_instance

instance (s : List PlayEvent) : Decidable (albumListeningCond s) := by
  unfold albumListeningCond; infer_instance

instance (s : List PlayEvent) : Decidable (varietyCond s) := by
  unfold varietyCond; infer_instance

theorem sessionType_eq_ruleTable (s : List PlayEvent) :
    sessionType s =
      if singleArtistCond s then "single_artist"
      else if albumListeningCond s then "album_listening"
      else if varietyCond s then "variety"
      else "mixed" := by
  simp [sessionType, singleArtistCond, albumListeningCond, varietyCond]

/-- C5: every session gets exactly one of the four type labels, assigned by
testing single-artist, album-listening and variety in that priority order
with first match winning and `"mixed"` as the default; in particular a
single-event session is always `"mixed"`. -/
theorem session_content_analysis_types (s : List PlayEvent) :
    (sessionType s = "single_artist" ∨ sessionType s = "album_listening" ∨
      sessionType s = "variety" ∨ sessionType s = "mixed") ∧
    (sessionType s = "single_artist" ↔ singleArtistCond s) ∧
    (sessionType s = "album_listening" ↔ ¬singleArtistCond s ∧ albumListeningCond s) ∧
    (sessionType s = "variety" ↔
      ¬singleArtistCond s ∧ ¬albumListeningCond s ∧ varietyCond s) ∧
    (sessionType s = "mixed" ↔
      ¬singleArtistCond s ∧ ¬albumListeningCond s ∧ ¬varietyCond s) ∧
    (s.length = 1 → sessionType s = "mixed") := by
  rw [sessionType_eq_ruleTable]
  refine ⟨?_, ?_, ?_, ?_, ?_, ?_⟩ <;>
    split_ifs <;> simp_all [singleArtistCond, albumListeningCond, varietyCond] <;> omega

/-- C5 witness: the typology instantiated at a concrete single-event
session, which is labeled `"mixed"`. -/
theorem session_content_analysis_types_witness :
    ([(⟨0, "A", "t1", 3⟩ : PlayEvent)].length = 1) ∧
      sessionType [⟨0, "A", "t1", 3⟩] = "mixed" :=
  ⟨rfl, (session_content_analysis_types [⟨0, "A", "t1", 3⟩]).2.2.2.2.2 rfl⟩

/-- Running minimum of end timestamps, `session['endTime'].min()`. -/
def minEndAux (m : ℚ) (l : List PlayEvent) : ℚ := l.foldl (fun a x => min a x.endTime) m

/-- Running maximum of end timestamps, `session['endTime'].max()`. -/
def maxEndAux (m : ℚ) (l : List PlayEvent) : ℚ := l.foldl (fun a x => max a x.endTime) m

/-- Session duration in minutes as computed in `session_statistics`: for a
session with more than one event, `endTime.max() - (endTime.min() -
minutes_played.iloc[0])`; for a single-event session, that event's
`minutes_played`. -/
def sessionLength : List PlayEvent → ℚ
  | [] => 0
  | e :: rest =>
    if rest.isEmpty then e.minutesPlayed
    else maxEndAux e.endTime rest - (minEndAux e.endTime rest - e.minutesPlayed)

theorem minEndAux_of_forall_le {m : ℚ} :
    ∀ {l : List PlayEvent}, (∀ x ∈ l, m ≤ x.endTime) → minEndAux m l = m := by
  intro l
  induction l generalizing m with
  | nil => intro _; rfl
  | cons x xs ih =>
    intro hl
    have hx : min m x.endTime = m := min_eq_left (hl x (List.mem_cons_self x xs))
    show minEndAux (min m x.endTime) xs = m
    rw [hx]
    exact ih fun y hy => hl y (List.mem_cons_of_mem x hy)

theorem maxEndAux_of_pairwise :
    ∀ (rest : List PlayEvent) (e : PlayEvent), (e :: rest).Pairwise evLe →
      maxEndAux e.endTime rest = ((e :: rest).getLastD e).endTime := by
  intro rest
  induction rest with
  | nil => intro e _; rfl
  | cons x xs ih =>
    intro e h
    rw [List.pairwise_cons] at h
    have hex : e.endTime ≤ x.endTime := h.1 x (List.mem_cons_self x xs)
    have hstep : maxEndAux e.endTime (x :: xs) = maxEndAux x.endTime xs := by
      show maxEndAux (max e.endTime x.endTime) xs = maxEndAux x.endTime xs
      rw [max_eq_right hex]
    rw [hstep, ih x h.2]
    cases xs with
    | nil => rfl
    | cons y ys => simp only [List.getLastD_cons]

/-- C6: for every session produced by `detect_sessions`, the duration used
by `session_statistics` equals (last event's end time) minus (first event's
end time minus the first event's own play duration) when the session has
more than one event, and equals the event's own play duration for a
single-event session. -/
theorem session_statistics_duration {evs : List PlayEvent} {g : ℚ} {e : PlayEvent}
    {rest : List PlayEvent} (h : (e :: rest) ∈ detect_sessions evs g) :
    (rest ≠ [] → sessionLength (e :: rest) =
      ((e :: rest).getLastD e).endTime - (e.endTime - e.minutesPlayed)) ∧
    (rest = [] → sessionLength (e :: rest) = e.minutesPlayed) := by
  constructor
  · intro hne
    have hsort : (e :: rest).Pairwise evLe :=
      (detect_sessions_sessions_pairwise evs g).1 _ h
    have hmin : minEndAux e.endTime rest = e.endTime :=
      minEndAux_of_forall_le (List.pairwise_cons.mp hsort).1
    have hmax : maxEndAux e.endTime rest = ((e :: rest).getLastD e).endTime :=
      maxEndAux_of_pairwise rest e hsort
    simp only [sessionLength, List.isEmpty_eq_true]
    rw [if_neg hne, hmin, hmax]
  · intro hnil
    subst hnil
    simp [sessionLength]

/-- C6 witness: the duration formula applied to the concrete two-event
session detected from a small event table. -/
theorem session_statistics_duration_witness :
    sessionLength [⟨0, "A", "t1", 3⟩, ⟨10, "B", "t2", 4⟩] =
      ((10 : ℚ)) - ((0 : ℚ) - 3) := by
  have hmem : ((⟨0, "A", "t1", 3⟩ : PlayEvent) ::
      [(⟨10, "B", "t2", 4⟩ : PlayEvent)]) ∈
      detect_sessions [⟨0, "A", "t1", 3⟩, ⟨10, "B", "t2", 4⟩] 30 := by
    norm_num [detect_sessions, detectSessionsSorted, sortByEnd, List.insertionSort,
      List.orderedInsert, evLe]
  have hth := (session_statistics_duration hmem).1 (by simp)
  simpa using hth

/-- Analyzer state for the session-statistics methods: the events table and
the `sessions` attribute (`none` models the attribute never having been
assigned). -/
structure Analyzer where
  df : List PlayEvent
  sessions : Option (List (List PlayEvent))
  deriving DecidableEq, Repr

/-- Effect of `self.detect_sessions()` (default gap threshold 30) on the
stored state: with an empty dataframe the method returns `[]` before ever
assigning `self.sessions`; otherwise it stores the detected sessions. -/
def runDetect (a : Analyzer) : Analyzer :=
  if a.df.isEmpty then a else { a with sessions := some (detect_sessions a.df 30) }

/-- The guard `if not hasattr(self, 'sessions') or not self.sessions:
self.detect_sessions()` shared by the statistics methods, followed by the
read of `self.sessions`; reading the attribute when it was never assigned
raises `AttributeError`, modelled as the error case. -/
def getSessions (a : Analyzer) : Except String (List (List PlayEvent)) :=
  let a2 := if (a.sessions.getD []).isEmpty then runDetect a else a
  match a2.sessions with
  | none => Except.error "AttributeError: sessions"
  | some s => Except.ok s

/-- A value of the statistics dictionary: a number or the session-length
histogram. -/
inductive StatVal where
  | num : ℚ → StatVal
  | dist : List (String × ℕ) → StatVal
  deriving DecidableEq, Repr

/-- `np.mean`: sum divided by length. -/
def meanQ (l : List ℚ) : ℚ := l.foldl (· + ·) 0 / l.length

/-- `np.median`: middle element of the sorted list, or the average of the
two middle elements for even length (the code only applies it to nonempty
lists). -/
def medianQ (l : List ℚ) : ℚ :=
  let s := l.insertionSort (· ≤ ·)
  if l.length % 2 = 1 then s.getD (l.length / 2) 0
  else (s.getD (l.length / 2 - 1) 0 + s.getD (l.length / 2) 0) / 2

/-- `max(...)` over a nonempty list (`0` is never used by the guarded
calls). -/
def maxQ : List ℚ → ℚ
  | [] => 0
  | x :: xs => xs.foldl max x

/-- `min(...)` over a nonempty list (`0` is never used by the guarded
calls). -/
def minQ : List ℚ → ℚ
  | [] => 0
  | x :: xs => xs.foldl min x

/-- `np.histogram(session_lengths, bins=[0,15,30,60,120,240,inf])` with the
labels built from the bin edges: half-open bins, the last one unbounded. -/
def lengthHistogram (lengths : List ℚ) : List (String × ℕ) :=
  [("0-15min", lengths.countP (fun x => decide (0 ≤ x ∧ x < 15))),
   ("15-30min", lengths.countP (fun x => decide (15 ≤ x ∧ x < 30))),
   ("30-60min", lengths.countP (fun x => decide (30 ≤ x ∧ x < 60))),
   ("60-120min", lengths.countP (fun x => decide (60 ≤ x ∧ x < 120))),
   ("120-240min", lengths.countP (fun x => decide (120 ≤ x ∧ x < 240))),
   ("240min+", lengths.countP (fun x => decide (240 ≤ x)))]

/-- The dictionary built by `session_statistics` from a session list: the
zero-session early return carries only five keys; the full branch carries
all eight. -/
def sessionStatsCore (sessions : List (List PlayEvent)) : List (String × StatVal) :=
  if sessions.isEmpty then
    [("total_sessions", StatVal.num 0), ("avg_session_length", StatVal.num 0),
     ("median_session_length", StatVal.num 0), ("avg_tracks_per_session", StatVal.num 0),
     ("avg_artists_per_session", StatVal.num 0)]
  else
    [("total_sessions", StatVal.num sessions.length),
     ("avg_session_length", StatVal.num (meanQ (sessions.map sessionLength))),
     ("median_session_length", StatVal.num (medianQ (sessions.map sessionLength))),
     ("avg_tracks_per_session",
       StatVal.num (meanQ (sessions.map (fun s => (s.length : ℚ))))),
     ("avg_artists_per_session",
       StatVal.num (meanQ (sessions.map (fun s => (uniqueArtists s : ℚ))))),
     ("session_length_distribution",
       StatVal.dist (lengthHistogram (sessions.map sessionLength))),
     ("longest_session_minutes", StatVal.num (maxQ (sessions.map sessionLength))),
     ("shortest_session_minutes", StatVal.num (minQ (sessions.map sessionLength)))]

/-- `session_statistics()`. -/
def session_statistics (a : Analyzer) : Except String (List (String × StatVal)) :=
  (getSessions a).map sessionStatsCore

/-- Session start time: `endTime.min() - Timedelta(minutes =
minutes_played.iloc[0])`. -/
def sessionStart : List PlayEvent → ℚ
  | [] => 0
  | e :: rest => minEndAux e.endTime rest - e.minutesPlayed

/-- Hour of day of a timestamp given in minutes since the epoch. -/
def hourOf (t : ℚ) : ℕ := ((⌊t / 60⌋ % 24)).toNat

/-- Day index of a timestamp given in minutes since the epoch. -/
def dayIndexOf (t : ℚ) : ℤ := ⌊t / 1440⌋

def weekNames : List String :=
  ["Monday", "Tuesday", "Wednesday", "Thursday", "Friday", "Saturday", "Sunday"]

/-- `strftime('%A')`: the epoch day 1970-01-01 was a Thursday (index 3 with
Monday = 0). -/
def weekdayNameOf (t : ℚ) : String := weekNames.getD (((dayIndexOf t + 3) % 7).toNat) ""

def monthNames : List String :=
  ["January", "February", "March", "April", "May", "June",
   "July", "August", "September", "October", "November", "December"]

/-- Month (1-12) of a day count since 1970-01-01, by the standard civil
from-days conversion on the proleptic Gregorian calendar. -/
def civilMonthOfDay (z : ℤ) : ℕ :=
  let z2 := z + 719468
  let era := Int.fdiv z2 146097
  let doe := z2 - era * 146097
  let yoe := Int.fdiv (doe - Int.fdiv doe 1460 + Int.fdiv doe 36524 - Int.fdiv doe 146096) 365
  let doy := doe - (365 * yoe + Int.fdiv yoe 4 - Int.fdiv yoe 100)
  let mp := Int.fdiv (5 * doy + 2) 153
  (if mp < 10 then mp + 3 else mp - 9).toNat

/-- `strftime('%B')`. -/
def monthNameOf (t : ℚ) : String := monthNames.getD (civilMonthOfDay (dayIndexOf t) - 1) ""

/-- Result shape of `session_patterns`. -/
structure PatternsResult where
  by_hour : List (ℕ × ℕ)
  by_weekday : List (String × ℕ)
  by_month : List (String × ℕ)
  deriving DecidableEq, Repr

/-- The distributions built by `session_patterns` from a session list: the
zero-session early return carries empty dictionaries; otherwise every hour
0-23, every weekday name and every month name is present with the count of
sessions whose start time falls in the bucket. -/
def sessionPatternsCore (sessions : List (List PlayEvent)) : PatternsResult :=
  if sessions.isEmpty then ⟨[], [], []⟩
  else
    let starts := sessions.map sessionStart
    ⟨(List.range 24).map (fun h => (h, (starts.map hourOf).count h)),
     weekNames.map (fun w => (w, (starts.map weekdayNameOf).count w)),
     monthNames.map (fun m => (m, (starts.map monthNameOf).count m))⟩

/-- `session_patterns()`. -/
def session_patterns (a : Analyzer) : Except String PatternsResult :=
  (getSessions a).map sessionPatternsCore

/-- Result shape of `session_content_analysis`; the fields model the keys
`avg_artist_continuity`, `avg_unique_artists_ratio` and `session_types` of
the returned dictionary. -/
structure ContentResult where
  continuityAvg : ℚ
  uniqueShareAvg : ℚ
  sessionTypes : List (String × ℕ)
  deriving DecidableEq, Repr

/-- Fraction of adjacent pairs within a session sharing the artist (the
code computes it only for sessions with more than one event). -/
def artistContinuity (s : List PlayEvent) : ℚ :=
  (((s.zip s.tail).countP (fun p => p.1.artistName == p.2.artistName) : ℚ)) /
    ((s.length - 1 : ℕ) : ℚ)

/-- Distinct artists over event count of a session. -/
def uniqueShare (s : List PlayEvent) : ℚ := (uniqueArtists s : ℚ) / (s.length : ℚ)

/-- `Counter(...)` over a list of labels: each occurring label with its
multiplicity. -/
def counterOf (l : List String) : List (String × ℕ) :=
  l.dedup.map (fun x => (x, l.count x))

/-- The analysis built by `session_content_analysis` from a session list. -/
def sessionContentCore (sessions : List (List PlayEvent)) : ContentResult :=
  if sessions.isEmpty then ⟨0, 0, []⟩
  else
    let multi := sessions.filter (fun s => decide (1 < s.length))
    ⟨if multi.isEmpty then 0 else meanQ (multi.map artistContinuity),
     if multi.isEmpty then 0 else meanQ (multi.map uniqueShare),
     counterOf (sessions.map sessionType)⟩

/-- `session_content_analysis()`. -/
def session_content_analysis (a : Analyzer) : Except String ContentResult :=
  (getSessions a).map sessionContentCore

theorem getSessions_spec (a : Analyzer) :
    getSessions a =
      match a.sessions with
      | none =>
        if a.df.isEmpty then Except.error "AttributeError: sessions"
        else Except.ok (detect_sessions a.df 30)
      | some s =>
        if s.isEmpty then
          (if a.df.isEmpty then Except.ok s else Except.ok (detect_sessions a.df 30))
        else Except.ok s := by
  cases a with
  | mk df sess =>
    cases sess with
    | none => by_cases h : df.isEmpty <;> simp [getSessions, runDetect, h]
    | some s =>
      by_cases hs : s.isEmpty <;> by_cases h : df.isEmpty <;>
        simp [getSessions, runDetect, h, hs]

/-- C7 counterexample: on a fresh analyzer with an empty event table (zero
sessions), `session_statistics` raises `AttributeError` — `detect_sessions`
returns before assigning the `sessions` attribute — rather than returning a
result carrying the declared keys. -/
theorem session_statistics_empty_counterexample :
    session_statistics ⟨[], none⟩ = Except.error "AttributeError: sessions" := rfl

/-- C7 amended: with zero sessions, `session_statistics` either raises
`AttributeError` (sessions attribute never assigned, empty table) or
returns a dictionary with exactly the five keys `total_sessions`,
`avg_session_length`, `median_session_length`, `avg_tracks_per_session`
and `avg_artists_per_session`, each zero; the keys
`session_length_distribution`, `longest_session_minutes` and
`shortest_session_minutes` of the declared interface are absent. -/
theorem session_statistics_zero_sessions (a : Analyzer) (hdf : a.df = []) :
    (a.sessions = some [] →
      session_statistics a =
        Except.ok
          [("total_sessions", StatVal.num 0), ("avg_session_length", StatVal.num 0),
           ("median_session_length", StatVal.num 0),
           ("avg_tracks_per_session", StatVal.num 0),
           ("avg_artists_per_session", StatVal.num 0)] ∧
      ∀ r, session_statistics a = Except.ok r →
        ("session_length_distribution" ∉ r.map Prod.fst ∧
         "longest_session_minutes" ∉ r.map Prod.fst ∧
         "shortest_session_minutes" ∉ r.map Prod.fst)) ∧
    (a.sessions = none →
      session_statistics a = Except.error "AttributeError: sessions") := by
  cases a with
  | mk df sess =>
    simp only at hdf
    subst hdf
    refine ⟨fun hs => ?_, fun hn => ?_⟩
    · subst hs
      refine ⟨rfl, fun r hr => ?_⟩
      rw [show session_statistics ⟨[], some []⟩ =
        Except.ok
          [("total_sessions", StatVal.num 0), ("avg_session_length", StatVal.num 0),
           ("median_session_length", StatVal.num 0),
           ("avg_tracks_per_session", StatVal.num 0),
           ("avg_artists_per_session", StatVal.num 0)] from rfl] at hr
      injection hr with hr2
      subst hr2
      refine ⟨by decide, by decide, by decide⟩
    · subst hn
      rfl

/-- C7 witness: the zero-session return value at a concrete analyzer state
with a stored empty session list. -/
theorem session_statistics_zero_sessions_witness :
    session_statistics ⟨[], some []⟩ =
      Except.ok
        [("total_sessions", StatVal.num 0), ("avg_session_length", StatVal.num 0),
         ("median_session_length", StatVal.num 0),
         ("avg_tracks_per_session", StatVal.num 0),
         ("avg_artists_per_session", StatVal.num 0)] :=
  ((session_statistics_zero_sessions ⟨[], some []⟩ rfl).1 rfl).1

theorem count_map_eq_countP {α β : Type} [BEq β] (f : α → β) (l : List α) (b : β) :
    (l.map f).count b = l.countP (fun a => f a == b) := by
  induction l with
  | nil => rfl
  | cons x xs ih => simp [List.count_cons, List.countP_cons, ih]

theorem map_fst_map_pair {α β : Type} (l : List α) (f : α → β) :
    (l.map (fun x => (x, f x))).map Prod.fst = l := by
  induction l with
  | nil => rfl
  | cons x xs ih => simp only [List.map_cons, Prod.fst]; rw [ih]

theorem getSessions_ok_of_df_ne_nil {a : Analyzer} (hdf : a.df ≠ []) :
    (getSessions a).isOk = true ∧
      ∀ ss, getSessions a = Except.ok ss → ss ≠ [] := by
  have hde : ¬a.df.isEmpty = true := by simpa using hdf
  cases hsess : a.sessions with
  | none =>
    have hg : getSessions a = Except.ok (detect_sessions a.df 30) := by
      rw [getSessions_spec, hsess]
      simp [hde]
    rw [hg]
    exact ⟨rfl, fun ss hss => by
      injection hss with h2
      exact h2 ▸ detect_sessions_ne_nil hdf 30⟩
  | some s =>
    by_cases hs : s.isEmpty
    · have hg : getSessions a = Except.ok (detect_sessions a.df 30) := by
        rw [getSessions_spec, hsess]
        simp [hde, hs]
      rw [hg]
      exact ⟨rfl, fun ss hss => by
        injection hss with h2
        exact h2 ▸ detect_sessions_ne_nil hdf 30⟩
    · have hg : getSessions a = Except.ok s := by
        rw [getSessions_spec, hsess]
        simp [hs]
      rw [hg]
      exact ⟨rfl, fun ss hss => by
        injection hss with h2
        exact h2 ▸ (by simpa using hs)⟩

/-- C8 counterexample: with a stored empty session list and an empty event
table, `session_patterns` returns empty dictionaries, so `by_hour` does not
contain hour 0 (nor any other hour). -/
theorem session_patterns_empty_counterexample :
    session_patterns ⟨[], some []⟩ = Except.ok (⟨[], [], []⟩ : PatternsResult) ∧
      (0 : ℕ) ∉ ((⟨[], [], []⟩ : PatternsResult).by_hour).map Prod.fst :=
  ⟨rfl, by simp⟩

/-- C8 amended: for every analyzer whose event table is nonempty,
`session_patterns` succeeds and its result contains every hour 0-23 in
`by_hour`, all seven weekday names in `by_weekday` and all twelve month
names in `by_month`, each mapped to the number of sessions whose start
time — the first event's end time minus its play duration, not its end
time — falls in that bucket (with an empty event table the zero-session
branches return empty dictionaries instead). -/
theorem session_patterns_buckets (a : Analyzer) (hdf : a.df ≠ []) :
    (getSessions a).isOk = true ∧
    ∀ ss, getSessions a = Except.ok ss →
      ss ≠ [] ∧
      session_patterns a = Except.ok (sessionPatternsCore ss) ∧
      (sessionPatternsCore ss).by_hour.map Prod.fst = List.range 24 ∧
      (sessionPatternsCore ss).by_weekday.map Prod.fst = weekNames ∧
      (sessionPatternsCore ss).by_month.map Prod.fst = monthNames ∧
      (sessionPatternsCore ss).by_hour =
        (List.range 24).map
          (fun h => (h, ss.countP (fun s => hourOf (sessionStart s) == h))) ∧
      (sessionPatternsCore ss).by_weekday =
        weekNames.map
          (fun w => (w, ss.countP (fun s => weekdayNameOf (sessionStart s) == w))) ∧
      (sessionPatternsCore ss).by_month =
        monthNames.map
          (fun m => (m, ss.countP (fun s => monthNameOf (sessionStart s) == m))) := by
  obtain ⟨hok, hne⟩ := getSessions_ok_of_df_ne_nil hdf
  refine ⟨hok, fun ss hss => ?_⟩
  have hssne : ss ≠ [] := hne ss hss
  have hsse : ¬ss.isEmpty = true := by simpa using hssne
  have hcore : sessionPatternsCore ss =
      ⟨(List.range 24).map
          (fun h => (h, ss.countP (fun s => hourOf (sessionStart s) == h))),
        weekNames.map
          (fun w => (w, ss.countP (fun s => weekdayNameOf (sessionStart s) == w))),
        monthNames.map
          (fun m => (m, ss.countP (fun s => monthNameOf (sessionStart s) == m)))⟩ := by
    rw [sessionPatternsCore, if_neg hsse]
    refine congrArg₂ (PatternsResult.mk · · _) ?_ ?_ |>.trans (congrArg _ ?_)
    · exact List.map_congr_left fun h _ => by
        rw [List.map_map, count_map_eq_countP]; rfl
    · exact List.map_congr_left fun w _ => by
        rw [List.map_map, count_map_eq_countP]; rfl
    · exact List.map_congr_left fun m _ => by
        rw [List.map_map, count_map_eq_countP]; rfl
  refine ⟨hssne, ?_, ?_, ?_, ?_, ?_, ?_, ?_⟩
  · rw [session_patterns, hss]; rfl
  · rw [hcore]; exact map_fst_map_pair _ _
  · rw [hcore]; exact map_fst_map_pair _ _
  · rw [hcore]; exact map_fst_map_pair _ _
  · rw [hcore]
  · rw [hcore]
  · rw [hcore]

/-- C8 witness: the bucket guarantees applied to a one-event analyzer,
whose freshly detected session list is the single session. -/
theorem session_patterns_buckets_witness :
    session_patterns ⟨[⟨0, "A", "t1", 3⟩], none⟩ =
      Except.ok (sessionPatternsCore [[⟨0, "A", "t1", 3⟩]]) ∧
    (sessionPatternsCore [[(⟨0, "A", "t1", 3⟩ : PlayEvent)]]).by_hour.map Prod.fst =
      List.range 24 :=
  have h := (session_patterns_buckets ⟨[⟨0, "A", "t1", 3⟩], none⟩ (by simp)).2
    [[⟨0, "A", "t1", 3⟩]] rfl
  ⟨h.2.1, h.2.2.1⟩

/-- C10 counterexample: on a fresh analyzer with an empty event table and
no stored session list, `session_content_analysis` (like the other two
statistics methods) fails with `AttributeError` instead of computing
statistics over the freshly detected (empty) session list —
`detect_sessions` returns early without assigning the attribute. -/
theorem session_content_analysis_recompute_counterexample :
    session_content_analysis ⟨[], none⟩ = Except.error "AttributeError: sessions" := rfl

theorem getSessions_recompute (a : Analyzer)
    (h : a.sessions = none ∨ a.sessions = some []) :
    (a.df ≠ [] ∨ a.sessions = some [] →
      getSessions a = Except.ok (detect_sessions a.df 30)) ∧
    (a.df = [] → a.sessions = none →
      getSessions a = Except.error "AttributeError: sessions") := by
  constructor
  · intro hcase
    rcases h with hn | he
    · have hdf : a.df ≠ [] := by
        rcases hcase with h1 | h1
        · exact h1
        · rw [hn] at h1; exact absurd h1 (by simp)
      rw [getSessions_spec, hn]
      simp [show ¬a.df.isEmpty = true by simpa using hdf]
    · rw [getSessions_spec, he]
      by_cases hdf : a.df.isEmpty
      · have : a.df = [] := by simpa using hdf
        simp [hdf, this, detect_sessions]
      · simp [hdf]
  · intro hdf hn
    rw [getSessions_spec, hn]
    simp [hdf]

/-- C10 amended: calling `session_statistics`, `session_patterns` or
`session_content_analysis` with no stored session list (or a stored empty
one) first invokes `detect_sessions` with the default gap threshold of 30
minutes, and the statistics are computed over that freshly computed session
list — except that on an empty event table with the `sessions` attribute
never assigned, the methods fail with `AttributeError`, because
`detect_sessions` returns early without storing the (empty) session list. -/
theorem stats_recompute_sessions (a : Analyzer)
    (h : a.sessions = none ∨ a.sessions = some []) :
    (a.df ≠ [] ∨ a.sessions = some [] →
      session_statistics a = Except.ok (sessionStatsCore (detect_sessions a.df 30)) ∧
      session_patterns a = Except.ok (sessionPatternsCore (detect_sessions a.df 30)) ∧
      session_content_analysis a =
        Except.ok (sessionContentCore (detect_sessions a.df 30))) ∧
    (a.df = [] → a.sessions = none →
      session_statistics a = Except.error "AttributeError: sessions" ∧
      session_patterns a = Except.error "AttributeError: sessions" ∧
      session_content_analysis a = Except.error "AttributeError: sessions") := by
  obtain ⟨hok, herr⟩ := getSessions_recompute a h
  constructor
  · intro hcase
    have hg := hok hcase
    exact ⟨by rw [session_statistics, hg]; rfl,
      by rw [session_patterns, hg]; rfl,
      by rw [session_content_analysis, hg]; rfl⟩
  · intro hdf hn
    have hg := herr hdf hn
    exact ⟨by rw [session_statistics, hg]; rfl,
      by rw [session_patterns, hg]; rfl,
      by rw [session_content_analysis, hg]; rfl⟩

/-- C10 witness: the recompute-on-demand behavior at a concrete one-event
analyzer with the `sessions` attribute unset. -/
theorem stats_recompute_sessions_witness :
    session_statistics ⟨[⟨5, "B", "t2", 2⟩], none⟩ =
      Except.ok (sessionStatsCore (detect_sessions [⟨5, "B", "t2", 2⟩] 30)) ∧
    session_patterns ⟨[⟨5, "B", "t2", 2⟩], none⟩ =
      Except.ok (sessionPatternsCore (detect_sessions [⟨5, "B", "t2", 2⟩] 30)) ∧
    session_content_analysis ⟨[⟨5, "B", "t2", 2⟩], none⟩ =
      Except.ok (sessionContentCore (detect_sessions [⟨5, "B", "t2", 2⟩] 30)) :=
  (stats_recompute_sessions ⟨[⟨5, "B", "t2", 2⟩], none⟩ (Or.inl rfl)).1
    (Or.inl (by simp))

/-- A trained context model: the ordered feature-name list saved at
training time (`self.context_features`) and the fitted decision function
(`self.context_model.predict` on a feature vector). -/
structure CtxModel where
  features : List String
  predictFn : List ℚ → String

/-- The feature-collection loop of `predict_context`: walk the trained
feature names in order, taking each value from the keyword arguments, and
raise `ValueError` naming the first feature not supplied. -/
def collectFeatures (fs : List String) (kwargs : List (String × ℚ)) :
    Except String (List ℚ) :=
  match fs with
  | [] => Except.ok []
  | f :: rest =>
    match kwargs.lookup f with
    | some v => (collectFeatures rest kwargs).map (fun vs => v :: vs)
    | none => Except.error ("Missing required feature: " ++ f)

/-- `predict_context(**kwargs)`: collect the feature values in training
order and apply the model. -/
def predict_context (m : CtxModel) (kwargs : List (String × ℚ)) :
    Except String String :=
  (collectFeatures m.features kwargs).map m.predictFn

/-- First trained feature name not supplied by the caller, if any. -/
def firstMissing (fs : List String) (kwargs : List (String × ℚ)) : Option String :=
  fs.find? (fun f => (kwargs.lookup f).isNone)

theorem collectFeatures_ok (kwargs : List (String × ℚ)) :
    ∀ fs : List String, firstMissing fs kwargs = none →
      collectFeatures fs kwargs =
        Except.ok (fs.map (fun f => (kwargs.lookup f).getD 0)) := by
  intro fs
  induction fs with
  | nil => intro _; rfl
  | cons f rest ih =>
    intro hnone
    rw [firstMissing, List.find?_cons] at hnone
    cases hv : kwargs.lookup f with
    | none =>
      rw [hv] at hnone
      simp at hnone
    | some v =>
      rw [hv] at hnone
      simp only [Option.isNone_some] at hnone
      simp only [collectFeatures, hv, ih hnone]
      simp [Except.map, hv]

theorem collectFeatures_missing (kwargs : List (String × ℚ)) :
    ∀ (fs : List String) (f : String), firstMissing fs kwargs = some f →
      f ∈ fs ∧ kwargs.lookup f = none ∧
        collectFeatures fs kwargs = Except.error ("Missing required feature: " ++ f) := by
  intro fs
  induction fs with
  | nil => intro f hf; simp [firstMissing] at hf
  | cons g rest ih =>
    intro f hf
    rw [firstMissing, List.find?_cons] at hf
    cases hl : kwargs.lookup g with
    | none =>
      rw [hl] at hf
      simp only [Option.isNone_none, cond_true, Option.some.injEq] at hf
      subst hf
      exact ⟨List.mem_cons_self g rest, hl, by rw [collectFeatures, hl]⟩
    | some v =>
      rw [hl] at hf
      simp only [Option.isNone_some, cond_false] at hf
      obtain ⟨hmem, hnone, herr⟩ := ih f hf
      refine ⟨List.mem_cons_of_mem g hmem, hnone, ?_⟩
      rw [collectFeatures, hl, herr]
      rfl

theorem firstMissing_eq_none_iff (fs : List String) (kwargs : List (String × ℚ)) :
    firstMissing fs kwargs = none ↔ ∀ f ∈ fs, (kwargs.lookup f).isSome := by
  rw [firstMissing, List.find?_eq_none]
  constructor
  · intro h f hf
    have := h f hf
    cases hl : kwargs.lookup f with
    | none => rw [hl] at this; exact absurd rfl this
    | some v => rfl
  · intro h f hf
    have := h f hf
    cases hl : kwargs.lookup f with
    | none => rw [hl] at this; exact absurd this (by simp)
    | some v => simp

/-- C9: if the supplied feature map omits any feature the model was trained
with, `predict_context` fails with an error naming the (first) missing
required feature, substituting no default; if every trained feature is
supplied, the collected values are passed to the model in the feature
ordering established at training time. -/
theorem predict_context_missing_feature (m : CtxModel) (kwargs : List (String × ℚ)) :
    (firstMissing m.features kwargs = none ↔
      ∀ f ∈ m.features, (kwargs.lookup f).isSome) ∧
    (∀ f, firstMissing m.features kwargs = some f →
      f ∈ m.features ∧ kwargs.lookup f = none ∧
        predict_context m kwargs = Except.error ("Missing required feature: " ++ f)) ∧
    (firstMissing m.features kwargs = none →
      predict_context m kwargs =
        Except.ok (m.predictFn (m.features.map (fun f => (kwargs.lookup f).getD 0)))) := by
  refine ⟨firstMissing_eq_none_iff m.features kwargs, fun f hf => ?_, fun hnone => ?_⟩
  · obtain ⟨hmem, hn, herr⟩ := collectFeatures_missing kwargs m.features f hf
    exact ⟨hmem, hn, by rw [predict_context, herr]; rfl⟩
  · rw [predict_context, collectFeatures_ok kwargs m.features hnone]
    rfl

/-- C9 witness: a model trained on hour and weekday, called once without
`weekday` (failing with the error naming it) and once fully supplied
(succeeding with the values in training order). -/
theorem predict_context_missing_feature_witness :
    predict_context ⟨["hour", "weekday"], fun _ => "work"⟩ [("hour", 8)] =
      Except.error ("Missing required feature: " ++ "weekday") ∧
    predict_context ⟨["hour", "weekday"], fun _ => "work"⟩
        [("weekday", 2), ("hour", 8)] =
      Except.ok ("work") :=
  ⟨((predict_context_missing_feature ⟨["hour", "weekday"], fun _ => "work"⟩
      [("hour", 8)]).2.1 "weekday" rfl).2.2,
   (predict_context_missing_feature ⟨["hour", "weekday"], fun _ => "work"⟩
      [("weekday", 2), ("hour", 8)]).2.2 rfl⟩

end Spotify
